import Mathlib

/-
Verification development for an ASGI-to-WSGI adapter
(project/asgi_to_wsgi.py).

The adapter wraps an asynchronous HTTP application (the callee) so it can
be driven by a synchronous gateway (the caller).  The embedding below
models, from the source:

  * byte strings as lists of bytes (`Bytes`), with UTF-8 encode and a
    strict structural UTF-8 decode mirroring Python bytes.decode;
  * the WSGI environ as an ordered association list of string entries
    plus an explicit field for the reserved input-stream key
    ("wsgi.input"), whose value may be absent, None, or a stream; a
    stream is modelled by the byte string its one exhausting read returns;
  * ASGI messages as a record with optional fields, mirroring Python
    dict messages where keys may be absent (message.get defaults);
  * the per-request instance state (HttpState, response body buffer,
    the asyncio queue, the log of response-callback invocations); the
    `enqueued` field is instrumentation recording the full history of
    queue puts, so FIFO facts can be stated; it never influences control;
  * the callee as a script of receive/send actions (a function of the
    scope), interpreted by `runApp`; a receive on an empty queue models
    an await that suspends forever (`RunOutcome.hang`).

Python exceptions become `AdapterError`: `valueError` is the
precondition failure, `keyError` a dict key lookup failure,
`protocolViolation` the TypeError raised by `send` (carrying the current
state and the offending message kind, as the formatted message does).
-/

namespace AsgiToWsgi

/-- Byte strings (Python bytes) as lists of bytes. -/
abbrev Bytes := List UInt8

/-- Python str.startswith, structurally on the character list. -/
def strStartsWith (s p : String) : Bool :=
  p.data.isPrefixOf s.data

/-- Python character slicing s[n:], structurally on the character list. -/
def strDrop (s : String) (n : Nat) : String :=
  String.mk (s.data.drop n)

/-- Python str.lower on the ASCII header keys, structurally on the
character list. -/
def strLower (s : String) : String :=
  String.mk (s.data.map Char.toLower)

/-- Python str.replace of the single character "_" by "-", structurally
on the character list. -/
def strUnderscoreToHyphen (s : String) : String :=
  String.mk (s.data.map fun c => if c = '_' then '-' else c)

/-- UTF-8 encoding of a string (Python str.encode applied with utf-8):
the byte list underlying String.toUTF8, built structurally. -/
def encodeUtf8 (s : String) : Bytes :=
  s.data.flatMap String.utf8EncodeChar

/-- Whether a byte is a UTF-8 continuation byte (0x80..0xbf). -/
def isCont (b : UInt8) : Bool :=
  0x80 ≤ b && b ≤ 0xbf

/-- Valid range of the second byte of a three-byte UTF-8 sequence,
given the first byte (excludes overlong forms and surrogates, as the
strict Python utf-8 codec does). -/
def cont3Ok (b0 b1 : UInt8) : Bool :=
  if b0 == 0xe0 then 0xa0 ≤ b1 && b1 ≤ 0xbf
  else if b0 == 0xed then 0x80 ≤ b1 && b1 ≤ 0x9f
  else isCont b1

/-- Valid range of the second byte of a four-byte UTF-8 sequence, given
the first byte (excludes overlong forms and values above 0x10ffff). -/
def cont4Ok (b0 b1 : UInt8) : Bool :=
  if b0 == 0xf0 then 0x90 ≤ b1 && b1 ≤ 0xbf
  else if b0 == 0xf4 then 0x80 ≤ b1 && b1 ≤ 0x8f
  else isCont b1

/-- Strict UTF-8 decoding of a byte list to characters, mirroring
Python bytes.decode with the utf-8 codec: rejects truncated sequences,
stray continuation bytes, overlong encodings, surrogates and values
above 0x10ffff. -/
def utf8DecodeChars : List UInt8 → Option (List Char)
  | [] => some []
  | b0 :: rest =>
    if b0 ≤ 0x7f then
      (utf8DecodeChars rest).map (Char.ofNat b0.toNat :: ·)
    else if 0xc2 ≤ b0 && b0 ≤ 0xdf then
      match rest with
      | b1 :: rest2 =>
        if isCont b1 then
          (utf8DecodeChars rest2).map
            (Char.ofNat ((b0.toNat &&& 0x1f) * 64 + (b1.toNat &&& 0x3f)) :: ·)
        else none
      | [] => none
    else if 0xe0 ≤ b0 && b0 ≤ 0xef then
      match rest with
      | b1 :: b2 :: rest2 =>
        if cont3Ok b0 b1 && isCont b2 then
          (utf8DecodeChars rest2).map
            (Char.ofNat ((b0.toNat &&& 0x0f) * 4096 + (b1.toNat &&& 0x3f) * 64
              + (b2.toNat &&& 0x3f)) :: ·)
        else none
      | _ => none
    else if 0xf0 ≤ b0 && b0 ≤ 0xf4 then
      match rest with
      | b1 :: b2 :: b3 :: rest2 =>
        if cont4Ok b0 b1 && isCont b2 && isCont b3 then
          (utf8DecodeChars rest2).map
            (Char.ofNat ((b0.toNat &&& 0x07) * 262144 + (b1.toNat &&& 0x3f) * 4096
              + (b2.toNat &&& 0x3f) * 64 + (b3.toNat &&& 0x3f)) :: ·)
        else none
      | _ => none
    else none

/-- UTF-8 decoding of a byte string (Python bytes.decode with utf-8);
none models a UnicodeDecodeError being raised. -/
def decodeUtf8 (b : Bytes) : Option String :=
  (utf8DecodeChars b).map List.asString

/-- The response state enum (class HttpState in the source). -/
inductive HttpState where
  | REQUEST
  | RESPONSE
  | COMPLETE
deriving DecidableEq

/-- An ASGI message: a Python dict with a type key and optional further
keys (absent keys are none). -/
structure Msg where
  type : String
  status : Option Nat := none
  headers : Option (List (Bytes × Bytes)) := none
  body : Option Bytes := none
  more_body : Option Bool := none
deriving DecidableEq

/-- The http.request message the adapter enqueues: full body, no more body. -/
def requestMsg (b : Bytes) : Msg :=
  { type := "http.request", body := some b, more_body := some false }

/-- The http.disconnect message the adapter enqueues on completion. -/
def disconnectMsg : Msg :=
  { type := "http.disconnect" }

/-- The exceptions the adapter can raise: the ValueError precondition
failure, a dict KeyError, the TypeError for an illegal (state, message
kind) pair, and a UnicodeDecodeError from header decoding. -/
inductive AdapterError where
  | valueError (msg : String)
  | keyError (key : String)
  | protocolViolation (state : HttpState) (kind : String)
  | unicodeDecodeError
deriving DecidableEq

/-- The WSGI environ: the ordered string-valued entries (Python dict
iteration order is insertion order) together with the reserved
input-stream entry. wsgiInput is none when the key "wsgi.input" is
absent from the dict, some none when it maps to None, and some (some b)
when it maps to a stream whose one exhausting read returns b. The
stream entry never matches any header rule, so keeping it out of vars
does not affect header extraction. -/
structure Environ where
  vars : List (String × String)
  wsgiInput : Option (Option Bytes)

/-- Python dict lookup environ.get(k): first matching entry, if any. -/
def Environ.getStr (e : Environ) (k : String) : Option String :=
  (e.vars.find? fun kv => kv.1 = k).map Prod.snd

/-- Python dict lookup environ[k]: raises KeyError when the key is absent. -/
def Environ.getReq (e : Environ) (k : String) : Except AdapterError String :=
  match e.getStr k with
  | some v => Except.ok v
  | none => Except.error (AdapterError.keyError k)

/-- The ASGI connection scope dict built by build_scope_and_body. -/
structure Scope where
  type : String
  method : String
  root_path : String
  path : String
  query_string : String
  http_version : String
  scheme : String
  server : String × String
  client : String
  headers : List (Bytes × Bytes)
deriving DecidableEq

/-- The if/elif chain of the header loop: the corrected header name for
an environ key, or none when the key contributes no header. -/
def headerNameOf (name : String) : Option String :=
  if strStartsWith name "HTTP_" then
    some (strUnderscoreToHyphen (strLower (strDrop name 5)))
  else if name = "CONTENT_LENGTH" then some "content-length"
  else if name = "CONTENT_TYPE" then some "content-type"
  else none

/-- The header-extraction loop over environ.items(): appends the UTF-8
encoded (corrected name, original value) pair for each contributing key,
in iteration order. -/
def buildHeaders (vars : List (String × String)) : List (Bytes × Bytes) :=
  vars.foldl
    (fun headers nv =>
      match headerNameOf nv.1 with
      | none => headers
      | some cn => headers ++ [(encodeUtf8 cn, encodeUtf8 nv.2)])
    []

/-- build_scope_and_body: the header loop, the scope dict (its entries
evaluated in source order, each required key lookup able to raise
KeyError), and the body read: the whole input stream if one is present,
the empty body if the key maps to None (the source returns the empty
string there), and a KeyError if the key is absent. -/
def build_scope_and_body (environ : Environ) : Except AdapterError (Scope × Bytes) :=
  let headers := buildHeaders environ.vars
  match environ.getReq "REQUEST_METHOD" with
  | Except.error e => Except.error e
  | Except.ok method =>
  match environ.getReq "SCRIPT_NAME" with
  | Except.error e => Except.error e
  | Except.ok root_path =>
  match environ.getReq "PATH_INFO" with
  | Except.error e => Except.error e
  | Except.ok path =>
  match environ.getReq "QUERY_STRING" with
  | Except.error e => Except.error e
  | Except.ok query_string =>
  match environ.getReq "SERVER_PROTOCOL" with
  | Except.error e => Except.error e
  | Except.ok proto =>
  let scheme := (environ.getStr "wsgi.url_scheme").getD "http"
  match environ.getReq "SERVER_NAME" with
  | Except.error e => Except.error e
  | Except.ok server_name =>
  match environ.getReq "SERVER_PORT" with
  | Except.error e => Except.error e
  | Except.ok server_port =>
  match environ.getReq "REMOTE_ADDR" with
  | Except.error e => Except.error e
  | Except.ok remote_addr =>
  let scope : Scope :=
    { type := "http",
      method := method,
      root_path := root_path,
      path := path,
      query_string := query_string,
      http_version := strDrop proto 5,
      scheme := scheme,
      server := (server_name, server_port),
      client := remote_addr,
      headers := headers }
  match environ.wsgiInput with
  | none => Except.error (AdapterError.keyError "wsgi.input")
  | some none => Except.ok (scope, [])
  | some (some b) => Except.ok (scope, b)

/-- One record of a call to the WSGI start-response callback:
status text, decoded header pairs, and the exception info (always none). -/
abbrev RespCall := String × List (String × String) × Option Unit

/-- The per-request state of AsgiToWsgiInstance: the response state, the
body buffer (self.body), the channel (self.app_queue, front = next to
dequeue), the put history (instrumentation), and the log of
start-response callback invocations (the calls to self.response). -/
structure Instance where
  state : HttpState
  body : Bytes
  app_queue : List Msg
  enqueued : List Msg
  responseCalls : List RespCall
deriving DecidableEq

/-- The send operation (AsgiToWsgiInstance.send): validates the message
kind against the current state, drives the response callback on
http.response.start, accumulates body bytes on http.response.body, and
enqueues http.disconnect when the body is complete. -/
def send (self : Instance) (message : Msg) : Except AdapterError Instance :=
  let message_type := message.type
  if self.state = HttpState.REQUEST ∧ message_type = "http.response.start" then
    match message.status with
    | none => Except.error (AdapterError.keyError "status")
    | some s =>
      let status := toString s
      let headers := message.headers.getD []
      match headers.mapM (fun kv =>
          (decodeUtf8 kv.1).bind fun k => (decodeUtf8 kv.2).map fun v => (k, v)) with
      | none => Except.error AdapterError.unicodeDecodeError
      | some corrected_headers =>
        Except.ok { self with
          responseCalls := self.responseCalls ++ [(status, corrected_headers, none)],
          state := HttpState.RESPONSE }
  else if self.state = HttpState.RESPONSE ∧ message_type = "http.response.body" then
    let self1 := { self with body := self.body ++ message.body.getD [] }
    if (message.more_body.getD false) = false then
      Except.ok { self1 with
        state := HttpState.COMPLETE,
        app_queue := self1.app_queue ++ [disconnectMsg],
        enqueued := self1.enqueued ++ [disconnectMsg] }
    else
      Except.ok self1
  else
    Except.error (AdapterError.protocolViolation self.state message_type)

/-- One step of the callee: await receive(), or await send(message). -/
inductive Action where
  | receive
  | send (m : Msg)
deriving DecidableEq

/-- Outcome of driving the callee to the end of its script: normal
return, an exception from send, or a suspension that is never satisfied
(receive on an empty queue with no producer left). Each outcome carries
the instance state at that point and the messages the callee received. -/
inductive RunOutcome where
  | ok (inst : Instance) (received : List Msg)
  | err (e : AdapterError) (inst : Instance) (received : List Msg)
  | hang (inst : Instance) (received : List Msg)
deriving DecidableEq

/-- Interpret the callee script: receive dequeues the front of
app_queue (self.receive awaiting app_queue.get), send applies the state
machine; a raised error aborts the run. -/
def runApp : Instance → List Msg → List Action → RunOutcome
  | inst, received, [] => RunOutcome.ok inst received
  | inst, received, Action.receive :: rest =>
    match inst.app_queue with
    | [] => RunOutcome.hang inst received
    | m :: q => runApp { inst with app_queue := q } (received ++ [m]) rest
  | inst, received, Action.send m :: rest =>
    match send inst m with
    | Except.ok inst2 => runApp inst2 received rest
    | Except.error e => RunOutcome.err e inst received

/-- Sequential application of several send messages, as the callee
awaiting one send after another. -/
def sendAll (inst : Instance) : List Msg → Except AdapterError Instance
  | [] => Except.ok inst
  | m :: ms =>
    match send inst m with
    | Except.ok inst2 => sendAll inst2 ms
    | Except.error e => Except.error e

/-- A http.response.body message with the given payload and more-body flag. -/
def bodyMsg (b : Bytes) (mb : Bool) : Msg :=
  { type := "http.response.body", body := some b, more_body := some mb }

/-- The fresh per-request instance as run_asgi_app sets it up: state
REQUEST, empty body buffer (from init), and the queue seeded with the
single http.request message carrying the full request body. -/
def initInstance (body : Bytes) : Instance :=
  { state := HttpState.REQUEST,
    body := [],
    app_queue := [requestMsg body],
    enqueued := [requestMsg body],
    responseCalls := [] }

/-- run_asgi_app: seed the queue with the request message and drive the
callee (the asyncio.run of the application coroutine). -/
def run_asgi_app (app : Scope → List Action) (scope : Scope) (body : Bytes) : RunOutcome :=
  runApp (initInstance body) [] (app scope)

/-- The observable outcome of one facade invocation: the returned
finite sequence of byte chunks together with the log of start-response
callback invocations, or the propagated exception, or a hang of the
calling thread. -/
inductive CallResult where
  | ok (chunks : List Bytes) (respCalls : List RespCall)
  | err (e : AdapterError)
  | hangs
deriving DecidableEq

/-- AsgiToWsgiInstance applied to (environ, response): the SERVER_PROTOCOL
precondition check, then build_scope_and_body, then the run of the
callee, then the one-element tuple of the buffered body. The callee is
a function from the scope to its script of actions. -/
def callInstance (environ : Environ) (app : Scope → List Action) : CallResult :=
  match environ.getStr "SERVER_PROTOCOL" with
  | none => CallResult.err (AdapterError.keyError "SERVER_PROTOCOL")
  | some proto =>
    if ¬ strStartsWith proto "HTTP" then
      CallResult.err (AdapterError.valueError "ASGI wrapper received a non-HTTP environ")
    else
      match build_scope_and_body environ with
      | Except.error e => CallResult.err e
      | Except.ok (scope, body) =>
        match run_asgi_app app scope body with
        | RunOutcome.ok inst _ => CallResult.ok [inst.body] inst.responseCalls
        | RunOutcome.err e _ _ => CallResult.err e
        | RunOutcome.hang _ _ => CallResult.hangs

/-- AsgiToWsgi.call: the outer wrapper creates a fresh instance per
invocation and applies it. -/
def call (app : Scope → List Action) (environ : Environ) : CallResult :=
  callInstance environ app

/-- A minimal valid environ for the end-to-end test: all required keys,
input stream key mapped to None. -/
def env1 : Environ :=
  { vars := [("REQUEST_METHOD", "GET"), ("SCRIPT_NAME", ""), ("PATH_INFO", "/"),
             ("QUERY_STRING", ""), ("SERVER_PROTOCOL", "HTTP/1.1"),
             ("SERVER_NAME", "localhost"), ("SERVER_PORT", "80"),
             ("REMOTE_ADDR", "127.0.0.1")],
    wsgiInput := some none }

/-- The end-to-end callee: response.start with status 200 and one raw
header pair, then response.body with the whole body and no more body. -/
def app1 : Scope → List Action := fun _ =>
  [Action.send { type := "http.response.start", status := some 200,
                 headers := some [(encodeUtf8 "x", encodeUtf8 "y")] },
   Action.send { type := "http.response.body", body := some (encodeUtf8 "hello"),
                 more_body := some false }]

/-- A response.start message with status 200 and no headers key. -/
def startMsg200 : Msg :=
  { type := "http.response.start", status := some 200 }

/-- The instance reached from the fresh empty-body instance by sending
startMsg200. -/
def startedInstance : Instance :=
  { state := HttpState.RESPONSE, body := [], app_queue := [requestMsg []],
    enqueued := [requestMsg []], responseCalls := [("200", [], none)] }

/-- A concrete instance in the terminal COMPLETE state. -/
def completeInstance : Instance :=
  { state := HttpState.COMPLETE, body := [], app_queue := [],
    enqueued := [requestMsg [], disconnectMsg], responseCalls := [] }

/-- The header-extraction rule as the spec states it, per environ
entry: a key prefixed HTTP_ yields the UTF-8 encoding of the suffix,
lowercased with underscores replaced by hyphens, paired with the UTF-8
encoding of the original value; CONTENT_LENGTH and CONTENT_TYPE yield
content-length and content-type; any other key yields no header. -/
def c4HeaderRule (nv : String × String) : Option (Bytes × Bytes) :=
  if strStartsWith nv.1 "HTTP_" then
    some (encodeUtf8 (strUnderscoreToHyphen (strLower (strDrop nv.1 5))), encodeUtf8 nv.2)
  else if nv.1 = "CONTENT_LENGTH" then some (encodeUtf8 "content-length", encodeUtf8 nv.2)
  else if nv.1 = "CONTENT_TYPE" then some (encodeUtf8 "content-type", encodeUtf8 nv.2)
  else none

/-- The instance carried by a run outcome. -/
def RunOutcome.inst : RunOutcome → Instance
  | RunOutcome.ok i _ => i
  | RunOutcome.err _ i _ => i
  | RunOutcome.hang i _ => i

/-- The messages the callee had received when the run ended. -/
def RunOutcome.received : RunOutcome → List Msg
  | RunOutcome.ok _ r => r
  | RunOutcome.err _ _ r => r
  | RunOutcome.hang _ r => r

/-- The channel invariant of a run on request body b: the received
messages followed by the pending queue are exactly the put history, and
the put history is the request message alone until completion, then the
request message followed by the disconnect message. -/
def Inv (b : Bytes) (inst : Instance) (received : List Msg) : Prop :=
  received ++ inst.app_queue = inst.enqueued ∧
  (inst.state = HttpState.COMPLETE →
    inst.enqueued = [requestMsg b, disconnectMsg]) ∧
  (inst.state ≠ HttpState.COMPLETE → inst.enqueued = [requestMsg b])

/-- A callee script that consumes the request, completes the response,
then calls receive twice more: the first extra receive is satisfied by
the disconnect message, the second suspends forever. -/
def actsC5 : List Action :=
  [Action.receive,
   Action.send startMsg200,
   Action.send (bodyMsg (encodeUtf8 "hi") false),
   Action.receive,
   Action.receive]

/-- An environ with every required key but without the input-stream key. -/
def envC9 : Environ :=
  { vars := env1.vars, wsgiInput := none }

/-- The scope built from env1 extended with an HTTP_X_FOO key and a
CONTENT_TYPE key in front. -/
def scopeC4 : Scope :=
  { type := "http", method := "GET", root_path := "", path := "/",
    query_string := "", http_version := "1.1", scheme := "http",
    server := ("localhost", "80"), client := "127.0.0.1",
    headers := [(encodeUtf8 "x-foo", encodeUtf8 "bar"),
                (encodeUtf8 "content-type", encodeUtf8 "text/plain")] }

/-- The scope built from env1 (no header-producing keys). -/
def scopeC8 : Scope :=
  { type := "http", method := "GET", root_path := "", path := "/",
    query_string := "", http_version := "1.1", scheme := "http",
    server := ("localhost", "80"), client := "127.0.0.1", headers := [] }

/-- The normal single-body callee script: consume the request, start
the response, complete the body. -/
def actsC5ok : List Action :=
  [Action.receive,
   Action.send startMsg200,
   Action.send (bodyMsg (encodeUtf8 "hi") false)]

/-- The instance after running actsC5ok on an empty request body: the
response is complete and the disconnect message is pending. -/
def instC5 : Instance :=
  { state := HttpState.COMPLETE, body := encodeUtf8 "hi",
    app_queue := [disconnectMsg],
    enqueued := [requestMsg [], disconnectMsg],
    responseCalls := [("200", [], none)] }

/-- The instance at the moment the second post-completion receive of
actsC5 suspends: the queue is already drained. -/
def instC5hang : Instance :=
  { state := HttpState.COMPLETE, body := encodeUtf8 "hi",
    app_queue := [],
    enqueued := [requestMsg [], disconnectMsg],
    responseCalls := [("200", [], none)] }

end AsgiToWsgi

namespace AsgiToWsgi

/-- Claim C1: on a minimal valid environ, with a callee that sends
response.start (status 200, headers [(b"x", b"y")]) and then
response.body (body b"hello", more body false), the adapter invokes the
response callback exactly once with ("200", [("x", "y")], None) and
returns the one-element sequence whose only chunk is b"hello". -/
theorem C1_end_to_end :
    call app1 env1 =
      CallResult.ok [encodeUtf8 "hello"] [("200", [("x", "y")], none)] := by
  decide

/-- Claim C3: for every environ whose SERVER_PROTOCOL value does not
start with "HTTP", the adapter fails with the ValueError precondition
failure, whatever the callee script: in particular before any scope or
body construction and before the callee is invoked. -/
theorem C3_precondition (environ : Environ) (app : Scope → List Action)
    (p : String) (hp : environ.getStr "SERVER_PROTOCOL" = some p)
    (hh : strStartsWith p "HTTP" = false) :
    call app environ =
      CallResult.err (AdapterError.valueError "ASGI wrapper received a non-HTTP environ") := by
  unfold call callInstance
  rw [hp]
  simp [hh]

/-- Witness for C3: a concrete environ with protocol FTP/1.0 fails with
the precondition ValueError. -/
theorem C3_precondition_witness :
    call (fun _ => []) { vars := [("SERVER_PROTOCOL", "FTP/1.0")], wsgiInput := none } =
      CallResult.err (AdapterError.valueError "ASGI wrapper received a non-HTTP environ") :=
  C3_precondition _ (fun _ => []) "FTP/1.0" (by decide) (by decide)

/-- Characterization of a successful send: exactly the three legal
(state, message kind) combinations, each with the exact resulting
instance fields. -/
lemma send_ok_elim {inst : Instance} {m : Msg} {inst2 : Instance}
    (h : send inst m = Except.ok inst2) :
    (inst.state = HttpState.REQUEST ∧ m.type = "http.response.start" ∧
      inst2.state = HttpState.RESPONSE ∧ inst2.body = inst.body ∧
      inst2.app_queue = inst.app_queue ∧ inst2.enqueued = inst.enqueued) ∨
    (inst.state = HttpState.RESPONSE ∧ m.type = "http.response.body" ∧
      m.more_body.getD false = true ∧
      inst2 = { inst with body := inst.body ++ m.body.getD [] }) ∨
    (inst.state = HttpState.RESPONSE ∧ m.type = "http.response.body" ∧
      m.more_body.getD false = false ∧
      inst2 = { inst with
                  body := inst.body ++ m.body.getD [],
                  state := HttpState.COMPLETE,
                  app_queue := inst.app_queue ++ [disconnectMsg],
                  enqueued := inst.enqueued ++ [disconnectMsg] }) := by
  simp only [send] at h
  split at h
  · rename_i hc
    split at h
    · exact absurd h (by simp)
    · split at h
      · exact absurd h (by simp)
      · left
        simp only [Except.ok.injEq] at h
        subst h
        exact ⟨hc.1, hc.2, rfl, rfl, rfl, rfl⟩
  · split at h
    · rename_i hc2
      split at h
      · rename_i hmb
        right; right
        simp only [Except.ok.injEq] at h
        subst h
        exact ⟨hc2.1, hc2.2, hmb, rfl⟩
      · rename_i hmb
        right; left
        simp only [Except.ok.injEq] at h
        subst h
        refine ⟨hc2.1, hc2.2, ?_, rfl⟩
        revert hmb
        cases m.more_body.getD false <;> simp
    · exact absurd h (by simp)

/-- A send whose (state, kind) pair is illegal raises exactly the
protocol-violation error carrying that state and kind. -/
lemma send_illegal {inst : Instance} {m : Msg}
    (h1 : ¬ (inst.state = HttpState.REQUEST ∧ m.type = "http.response.start"))
    (h2 : ¬ (inst.state = HttpState.RESPONSE ∧ m.type = "http.response.body")) :
    send inst m = Except.error (AdapterError.protocolViolation inst.state m.type) := by
  simp only [send]
  rw [if_neg h1, if_neg h2]

/-- Claim C2: for every (state, message kind) pair other than the three
legal ones, send fails with the ProtocolViolationError identifying the
current state and the message kind (covering a second response.start, a
body before any start, any message after COMPLETE, and unrecognized
kinds), and the failing send leaves the instance, hence the
ResponseState and the response-callback log, unchanged: the run aborts
with exactly the pre-send instance. -/
theorem C2_illegal_pairs (inst : Instance) (m : Msg)
    (h1 : ¬ (inst.state = HttpState.REQUEST ∧ m.type = "http.response.start"))
    (h2 : ¬ (inst.state = HttpState.RESPONSE ∧ m.type = "http.response.body")) :
    send inst m = Except.error (AdapterError.protocolViolation inst.state m.type) ∧
    ∀ (received : List Msg) (rest : List Action),
      runApp inst received (Action.send m :: rest) =
        RunOutcome.err (AdapterError.protocolViolation inst.state m.type) inst received := by
  refine ⟨send_illegal h1 h2, fun received rest => ?_⟩
  simp [runApp, send_illegal h1 h2]

/-- Witness for C2: a response.body sent in state REQUEST (before any
response.start) fails with the protocol violation naming REQUEST and
http.response.body, and the run aborts with the instance unchanged. -/
theorem C2_illegal_pairs_witness :
    send (initInstance []) (bodyMsg (encodeUtf8 "hi") false) =
      Except.error (AdapterError.protocolViolation HttpState.REQUEST "http.response.body") ∧
    runApp (initInstance []) [] [Action.send (bodyMsg (encodeUtf8 "hi") false)] =
      RunOutcome.err (AdapterError.protocolViolation HttpState.REQUEST "http.response.body")
        (initInstance []) [] := by
  have h := C2_illegal_pairs (initInstance []) (bodyMsg (encodeUtf8 "hi") false)
    (by decide) (by decide)
  exact ⟨h.1, h.2 [] []⟩

/-- Claim C7: the response state only moves along the single forward
path REQUEST to RESPONSE to COMPLETE: a successful send is either
REQUEST to RESPONSE on response.start, RESPONSE to RESPONSE on
response.body with more body, or RESPONSE to COMPLETE on response.body
without more body; and COMPLETE is terminal: from COMPLETE every send
fails. -/
theorem C7_forward_path :
    (∀ (inst : Instance) (m : Msg) (inst2 : Instance),
      send inst m = Except.ok inst2 →
        (inst.state = HttpState.REQUEST ∧ m.type = "http.response.start" ∧
          inst2.state = HttpState.RESPONSE) ∨
        (inst.state = HttpState.RESPONSE ∧ m.type = "http.response.body" ∧
          m.more_body.getD false = true ∧ inst2.state = HttpState.RESPONSE) ∨
        (inst.state = HttpState.RESPONSE ∧ m.type = "http.response.body" ∧
          m.more_body.getD false = false ∧ inst2.state = HttpState.COMPLETE)) ∧
    (∀ (inst : Instance) (m : Msg), inst.state = HttpState.COMPLETE →
      send inst m =
        Except.error (AdapterError.protocolViolation HttpState.COMPLETE m.type)) := by
  constructor
  · intro inst m inst2 h
    rcases send_ok_elim h with ⟨h1, h2, h3, _⟩ | ⟨h1, h2, h3, h4⟩ | ⟨h1, h2, h3, h4⟩
    · exact Or.inl ⟨h1, h2, h3⟩
    · exact Or.inr (Or.inl ⟨h1, h2, h3, by subst h4; exact h1⟩)
    · exact Or.inr (Or.inr ⟨h1, h2, h3, by subst h4; rfl⟩)
  · intro inst m h
    rw [← h]
    exact send_illegal (by rw [h]; simp) (by rw [h]; simp)

/-- Witness for C7: a concrete successful start transition lands in one
of the three legal transitions, and a concrete COMPLETE instance
rejects every further message. -/
theorem C7_forward_path_witness :
    (((initInstance []).state = HttpState.REQUEST ∧
      (startMsg200).type = "http.response.start" ∧
      (startedInstance).state = HttpState.RESPONSE) ∨
    ((initInstance []).state = HttpState.RESPONSE ∧
      (startMsg200).type = "http.response.body" ∧
      (startMsg200).more_body.getD false = true ∧
      (startedInstance).state = HttpState.RESPONSE) ∨
    ((initInstance []).state = HttpState.RESPONSE ∧
      (startMsg200).type = "http.response.body" ∧
      (startMsg200).more_body.getD false = false ∧
      (startedInstance).state = HttpState.COMPLETE)) ∧
    send completeInstance disconnectMsg =
      Except.error (AdapterError.protocolViolation HttpState.COMPLETE "http.disconnect") :=
  ⟨C7_forward_path.1 (initInstance []) startMsg200 startedInstance rfl,
   C7_forward_path.2 completeInstance disconnectMsg rfl⟩

/-- Claim C10: missing optional message fields take their defaults. A
response.start without a headers key invokes the response callback with
an empty header list; a response.body without a body key appends
nothing to the buffer; a response.body without a more-body key is
treated as no more body: it completes the response and enqueues the
disconnect message. -/
theorem C10_field_defaults :
    (∀ (inst : Instance) (m : Msg) (s : Nat),
      inst.state = HttpState.REQUEST → m.type = "http.response.start" →
      m.status = some s → m.headers = none →
      send inst m = Except.ok { inst with
        state := HttpState.RESPONSE,
        responseCalls := inst.responseCalls ++ [(toString s, [], none)] }) ∧
    (∀ (inst : Instance) (m : Msg) (inst2 : Instance),
      inst.state = HttpState.RESPONSE → m.type = "http.response.body" →
      m.body = none → send inst m = Except.ok inst2 → inst2.body = inst.body) ∧
    (∀ (inst : Instance) (m : Msg),
      inst.state = HttpState.RESPONSE → m.type = "http.response.body" →
      m.more_body = none →
      send inst m = Except.ok { inst with
        body := inst.body ++ m.body.getD [],
        state := HttpState.COMPLETE,
        app_queue := inst.app_queue ++ [disconnectMsg],
        enqueued := inst.enqueued ++ [disconnectMsg] }) := by
  refine ⟨?_, ?_, ?_⟩
  · intro inst m s hst hty hs hh
    simp [send, hst, hty, hs, hh, List.mapM.loop]
  · intro inst m inst2 hst hty hb h
    rcases send_ok_elim h with ⟨h1, _⟩ | ⟨_, _, _, h4⟩ | ⟨_, _, _, h4⟩
    · rw [hst] at h1; exact absurd h1 (by simp)
    · subst h4; simp [hb]
    · subst h4; simp [hb]
  · intro inst m hst hty hmb
    simp [send, hst, hty, hmb]

/-- Witness for C10: the three defaults at concrete inputs: a start
with no headers key from the fresh instance, and body messages with no
body key and with no more-body key from the started instance. -/
theorem C10_field_defaults_witness :
    send (initInstance []) startMsg200 = Except.ok { (initInstance []) with
      state := HttpState.RESPONSE,
      responseCalls := [("200", [], none)] } ∧
    startedInstance.body = startedInstance.body ∧
    send startedInstance { type := "http.response.body" } =
      Except.ok { startedInstance with
        state := HttpState.COMPLETE,
        app_queue := startedInstance.app_queue ++ [disconnectMsg],
        enqueued := startedInstance.enqueued ++ [disconnectMsg] } := by
  have h1 := C10_field_defaults.1 (initInstance []) startMsg200 200 rfl rfl rfl rfl
  have h2 := C10_field_defaults.2.1 startedInstance { type := "http.response.body" }
    { startedInstance with
        state := HttpState.COMPLETE,
        app_queue := startedInstance.app_queue ++ [disconnectMsg],
        enqueued := startedInstance.enqueued ++ [disconnectMsg] } rfl rfl rfl
  have h3 := C10_field_defaults.2.2 startedInstance { type := "http.response.body" }
    rfl rfl rfl
  exact ⟨h1, h2 (by exact h3), by exact h3⟩

/-- Appending message lists to a sendAll run: the run of the
concatenation is the run of the first part continued, when successful,
by the run of the second part. -/
lemma sendAll_append (inst : Instance) (xs ys : List Msg) :
    sendAll inst (xs ++ ys) =
      match sendAll inst xs with
      | Except.ok inst2 => sendAll inst2 ys
      | Except.error e => Except.error e := by
  induction xs generalizing inst with
  | nil => simp [sendAll]
  | cons m ms ih =>
    simp only [List.cons_append, sendAll]
    cases h : send inst m with
    | ok inst2 => simp [ih]
    | error e => simp

/-- Sending a run of more-body chunks from state RESPONSE succeeds,
stays in RESPONSE, and appends the concatenation of the chunks to the
buffer, leaving queue, put history and callback log unchanged. -/
lemma sendAll_chunks (bs : List Bytes) :
    ∀ (inst : Instance), inst.state = HttpState.RESPONSE →
      sendAll inst (bs.map fun b => bodyMsg b true) =
        Except.ok { inst with body := inst.body ++ bs.flatten } := by
  induction bs with
  | nil => intro inst _; simp [sendAll]
  | cons b bs ih =>
    intro inst hst
    have hs : send inst (bodyMsg b true) =
        Except.ok { inst with body := inst.body ++ b } := by
      simp [send, hst, bodyMsg]
    simp only [List.map_cons, sendAll, hs]
    rw [ih { inst with body := inst.body ++ b } hst]
    simp [List.append_assoc]

/-- Claim C6: from state RESPONSE with an empty buffer, a sequence of
response.body messages with more body, followed by a final
response.body without more body, succeeds and leaves the final buffer
equal to the concatenation, in application order, of all the body
payloads; the response is then complete. -/
theorem C6_concatenation (inst : Instance) (bs : List Bytes) (final : Bytes)
    (hst : inst.state = HttpState.RESPONSE) (hbody : inst.body = []) :
    ∃ inst2,
      sendAll inst ((bs.map fun b => bodyMsg b true) ++ [bodyMsg final false]) =
        Except.ok inst2 ∧
      inst2.body = bs.flatten ++ final ∧
      inst2.state = HttpState.COMPLETE := by
  rw [sendAll_append, sendAll_chunks bs inst hst]
  have hf : send { inst with body := inst.body ++ bs.flatten } (bodyMsg final false) =
      Except.ok { inst with
        body := (inst.body ++ bs.flatten) ++ final,
        state := HttpState.COMPLETE,
        app_queue := inst.app_queue ++ [disconnectMsg],
        enqueued := inst.enqueued ++ [disconnectMsg] } := by
    simp [send, hst, bodyMsg]
  refine ⟨{ inst with
      body := (inst.body ++ bs.flatten) ++ final,
      state := HttpState.COMPLETE,
      app_queue := inst.app_queue ++ [disconnectMsg],
      enqueued := inst.enqueued ++ [disconnectMsg] }, ?_, ?_, ?_⟩
  · simp only [sendAll, hf]
  · simp [hbody]
  · rfl

/-- Witness for C6: two more-body chunks then a final chunk from the
started instance concatenate in order into the final buffer. -/
theorem C6_concatenation_witness :
    ∃ inst2,
      sendAll startedInstance
        (([encodeUtf8 "he", encodeUtf8 "l"].map fun b => bodyMsg b true) ++
          [bodyMsg (encodeUtf8 "lo") false]) = Except.ok inst2 ∧
      inst2.body = [encodeUtf8 "he", encodeUtf8 "l"].flatten ++ encodeUtf8 "lo" ∧
      inst2.state = HttpState.COMPLETE :=
  C6_concatenation startedInstance [encodeUtf8 "he", encodeUtf8 "l"] (encodeUtf8 "lo")
    rfl rfl

/-- The header loop with any accumulator: foldl with append equals the
accumulator followed by a filterMap of the per-entry rule. -/
lemma buildHeaders_go (vars : List (String × String)) :
    ∀ acc : List (Bytes × Bytes),
      vars.foldl
        (fun headers nv =>
          match headerNameOf nv.1 with
          | none => headers
          | some cn => headers ++ [(encodeUtf8 cn, encodeUtf8 nv.2)]) acc
      = acc ++ vars.filterMap
          (fun nv => (headerNameOf nv.1).map fun cn => (encodeUtf8 cn, encodeUtf8 nv.2)) := by
  induction vars with
  | nil => intro acc; simp
  | cons nv vars ih =>
    intro acc
    cases hn : headerNameOf nv.1 with
    | none => simp [List.foldl_cons, List.filterMap_cons, hn, ih]
    | some cn => simp [List.foldl_cons, List.filterMap_cons, hn, ih]

/-- The per-entry header rule of the loop agrees with the rule the spec
states. -/
lemma headerNameOf_rule (nv : String × String) :
    ((headerNameOf nv.1).map fun cn => (encodeUtf8 cn, encodeUtf8 nv.2)) =
      c4HeaderRule nv := by
  unfold headerNameOf c4HeaderRule
  by_cases h1 : strStartsWith nv.1 "HTTP_" = true
  · rw [if_pos h1, if_pos h1]; rfl
  · rw [if_neg h1, if_neg h1]
    by_cases h2 : nv.1 = "CONTENT_LENGTH"
    · rw [if_pos h2, if_pos h2]; rfl
    · rw [if_neg h2, if_neg h2]
      by_cases h3 : nv.1 = "CONTENT_TYPE"
      · rw [if_pos h3, if_pos h3]; rfl
      · rw [if_neg h3, if_neg h3]; rfl

/-- The headers the loop builds are the filterMap of the spec rule over
the environ entries, in iteration order. -/
lemma buildHeaders_eq (vars : List (String × String)) :
    buildHeaders vars = vars.filterMap c4HeaderRule := by
  rw [buildHeaders, buildHeaders_go vars []]
  simp only [List.nil_append]
  exact List.filterMap_congr (fun nv _ => headerNameOf_rule nv)

/-- Elimination of a successful build: the scope headers are the loop
result, and the body is the full stream read (or empty when the stream
key maps to None). -/
lemma build_ok_elim {environ : Environ} {scope : Scope} {body : Bytes}
    (h : build_scope_and_body environ = Except.ok (scope, body)) :
    scope.headers = buildHeaders environ.vars ∧
    ((∃ s, environ.wsgiInput = some (some s) ∧ body = s) ∨
     (environ.wsgiInput = some none ∧ body = [])) := by
  simp only [build_scope_and_body] at h
  repeat' split at h
  all_goals try exact Except.noConfusion h
  · rename_i hw
    injection h with h2
    injection h2 with hsc hb
    subst hsc
    subst hb
    exact ⟨rfl, Or.inr ⟨hw, rfl⟩⟩
  · rename_i b hw
    injection h with h2
    injection h2 with hsc hb
    subst hsc
    subst hb
    exact ⟨rfl, Or.inl ⟨b, hw, rfl⟩⟩

/-- Claim C4: for every environ, the scope headers are exactly, in the
environ iteration order, the headers the spec rule produces: HTTP_
prefixed keys give the lowercased, hyphenated suffix; CONTENT_LENGTH
and CONTENT_TYPE give content-length and content-type; no other key
produces a header; names and values are UTF-8 encoded, the value being
the original string. -/
theorem C4_header_extraction (environ : Environ) (scope : Scope) (body : Bytes)
    (h : build_scope_and_body environ = Except.ok (scope, body)) :
    scope.headers = environ.vars.filterMap c4HeaderRule := by
  rw [(build_ok_elim h).1, buildHeaders_eq]

/-- Witness for C4: on a concrete environ with an HTTP_X_FOO key, a
CONTENT_TYPE key and an unrelated key, the built headers are the spec
rule filterMap, namely x-foo and content-type only. -/
theorem C4_header_extraction_witness :
    ∃ scope body,
      build_scope_and_body
        { vars := ("HTTP_X_FOO", "bar") :: ("CONTENT_TYPE", "text/plain") :: env1.vars,
          wsgiInput := some none } = Except.ok (scope, body) ∧
      scope.headers =
        (("HTTP_X_FOO", "bar") :: ("CONTENT_TYPE", "text/plain") :: env1.vars).filterMap
          c4HeaderRule ∧
      scope.headers = [(encodeUtf8 "x-foo", encodeUtf8 "bar"),
                       (encodeUtf8 "content-type", encodeUtf8 "text/plain")] := by
  have h : build_scope_and_body
      { vars := ("HTTP_X_FOO", "bar") :: ("CONTENT_TYPE", "text/plain") :: env1.vars,
        wsgiInput := some none } =
      Except.ok (scopeC4, []) := by rfl
  exact ⟨scopeC4, [], h, C4_header_extraction _ _ _ h, by decide⟩

/-- Claim C8: a successful build returns the scope and the body bytes:
the body is the one exhausting read of the input stream when a stream
is present, and empty when the stream entry is None; the runner then
places the whole body in the single request message with more body
false, never splitting it. -/
theorem C8_body_read (environ : Environ) (scope : Scope) (body : Bytes)
    (h : build_scope_and_body environ = Except.ok (scope, body)) :
    ((∃ s, environ.wsgiInput = some (some s) ∧ body = s) ∨
      (environ.wsgiInput = some none ∧ body = [])) ∧
    (initInstance body).app_queue = [requestMsg body] ∧
    (requestMsg body).body = some body ∧
    (requestMsg body).more_body = some false :=
  ⟨(build_ok_elim h).2, rfl, rfl, rfl⟩

/-- Witness for C8: a concrete environ whose stream reads b"abc" builds
that body, and the request message carries it whole. -/
theorem C8_body_read_witness :
    ((∃ s, ({ vars := env1.vars, wsgiInput := some (some (encodeUtf8 "abc")) } :
        Environ).wsgiInput = some (some s) ∧ encodeUtf8 "abc" = s) ∨
      (({ vars := env1.vars, wsgiInput := some (some (encodeUtf8 "abc")) } :
        Environ).wsgiInput = some none ∧ encodeUtf8 "abc" = [])) ∧
    (initInstance (encodeUtf8 "abc")).app_queue = [requestMsg (encodeUtf8 "abc")] ∧
    (requestMsg (encodeUtf8 "abc")).body = some (encodeUtf8 "abc") ∧
    (requestMsg (encodeUtf8 "abc")).more_body = some false :=
  C8_body_read { vars := env1.vars, wsgiInput := some (some (encodeUtf8 "abc")) }
    scopeC8 (encodeUtf8 "abc") (by rfl)

/-- Claim C9: an environ that passes the protocol precondition but has
no input-stream key at all fails before the callee is invoked with a
key-lookup error, whatever the callee script; when every other required
key is present the failing key is precisely the input-stream key. The
stream key must be present (possibly mapped to None, which yields the
empty body); its absence is not tolerated. -/
theorem C9_missing_input_key (environ : Environ) (app : Scope → List Action)
    (p : String) (hp : environ.getStr "SERVER_PROTOCOL" = some p)
    (hh : strStartsWith p "HTTP" = true)
    (hw : environ.wsgiInput = none) :
    (∃ k, call app environ = CallResult.err (AdapterError.keyError k)) ∧
    (∀ m1 m2 m3 m4 m6 m7 m8,
      environ.getStr "REQUEST_METHOD" = some m1 →
      environ.getStr "SCRIPT_NAME" = some m2 →
      environ.getStr "PATH_INFO" = some m3 →
      environ.getStr "QUERY_STRING" = some m4 →
      environ.getStr "SERVER_NAME" = some m6 →
      environ.getStr "SERVER_PORT" = some m7 →
      environ.getStr "REMOTE_ADDR" = some m8 →
      call app environ = CallResult.err (AdapterError.keyError "wsgi.input")) := by
  have hbuild : ∃ k, build_scope_and_body environ =
      Except.error (AdapterError.keyError k) := by
    simp only [build_scope_and_body, Environ.getReq]
    cases h1 : environ.getStr "REQUEST_METHOD" with
    | none => exact ⟨"REQUEST_METHOD", rfl⟩
    | some v1 =>
    cases h2 : environ.getStr "SCRIPT_NAME" with
    | none => exact ⟨"SCRIPT_NAME", rfl⟩
    | some v2 =>
    cases h3 : environ.getStr "PATH_INFO" with
    | none => exact ⟨"PATH_INFO", rfl⟩
    | some v3 =>
    cases h4 : environ.getStr "QUERY_STRING" with
    | none => exact ⟨"QUERY_STRING", rfl⟩
    | some v4 =>
    cases h5 : environ.getStr "SERVER_PROTOCOL" with
    | none => exact ⟨"SERVER_PROTOCOL", rfl⟩
    | some v5 =>
    cases h6 : environ.getStr "SERVER_NAME" with
    | none => exact ⟨"SERVER_NAME", rfl⟩
    | some v6 =>
    cases h7 : environ.getStr "SERVER_PORT" with
    | none => exact ⟨"SERVER_PORT", rfl⟩
    | some v7 =>
    cases h8 : environ.getStr "REMOTE_ADDR" with
    | none => exact ⟨"REMOTE_ADDR", rfl⟩
    | some v8 =>
    rw [hw]
    exact ⟨"wsgi.input", rfl⟩
  constructor
  · obtain ⟨k, hk⟩ := hbuild
    refine ⟨k, ?_⟩
    unfold call callInstance
    rw [hp]
    simp [hh, hk]
  · intro m1 m2 m3 m4 m6 m7 m8 g1 g2 g3 g4 g6 g7 g8
    have hk : build_scope_and_body environ =
        Except.error (AdapterError.keyError "wsgi.input") := by
      simp only [build_scope_and_body, Environ.getReq]
      rw [g1, g2, g3, g4, hp, g6, g7, g8, hw]
    unfold call callInstance
    rw [hp]
    simp [hh, hk]

/-- Witness for C9: the concrete environ with all required keys but no
input-stream key fails with the KeyError on the input-stream key,
before any callee action runs. -/
theorem C9_missing_input_key_witness :
    (∃ k, call (fun _ => []) envC9 = CallResult.err (AdapterError.keyError k)) ∧
    call (fun _ => []) envC9 = CallResult.err (AdapterError.keyError "wsgi.input") := by
  have h := C9_missing_input_key envC9 (fun _ => []) "HTTP/1.1" (by decide) (by decide) rfl
  exact ⟨h.1, h.2 "GET" "" "/" "" "localhost" "80" "127.0.0.1"
    (by decide) (by decide) (by decide) (by decide) (by decide) (by decide) (by decide)⟩

/-- The channel invariant holds of the fresh per-request instance. -/
lemma inv_init (b : Bytes) : Inv b (initInstance b) [] := by
  refine ⟨rfl, ?_, ?_⟩ <;> simp [initInstance, Inv]

/-- A successful send preserves the channel invariant. -/
lemma inv_send {b : Bytes} {inst : Instance} {received : List Msg} {m : Msg}
    {inst2 : Instance} (hI : Inv b inst received) (h : send inst m = Except.ok inst2) :
    Inv b inst2 received := by
  obtain ⟨hq, hc, hnc⟩ := hI
  rcases send_ok_elim h with ⟨h1, _, h3, _, h5, h6⟩ | ⟨h1, _, _, h4⟩ | ⟨h1, _, _, h4⟩
  · refine ⟨?_, ?_, ?_⟩
    · rw [h5, h6]; exact hq
    · intro hcomp; rw [h3] at hcomp; exact absurd hcomp (by simp)
    · intro _; rw [h6]; exact hnc (by rw [h1]; simp)
  · subst h4
    refine ⟨hq, ?_, ?_⟩
    · intro hcomp
      exact absurd (h1.symm.trans hcomp) (by simp)
    · intro _
      exact hnc (by rw [h1]; simp)
  · subst h4
    have hpre : inst.enqueued = [requestMsg b] := hnc (by rw [h1]; simp)
    refine ⟨?_, ?_, ?_⟩
    · show received ++ (inst.app_queue ++ [disconnectMsg]) = inst.enqueued ++ [disconnectMsg]
      rw [← List.append_assoc, hq]
    · intro _
      show inst.enqueued ++ [disconnectMsg] = [requestMsg b, disconnectMsg]
      rw [hpre]; rfl
    · intro hnc2
      exact absurd rfl hnc2

/-- Running any callee script preserves the channel invariant of the
outcome instance and received list. -/
lemma inv_runApp {b : Bytes} :
    ∀ (acts : List Action) (inst : Instance) (received : List Msg),
      Inv b inst received →
      Inv b (runApp inst received acts).inst (runApp inst received acts).received := by
  intro acts
  induction acts with
  | nil => intro inst received h; exact h
  | cons a rest ih =>
    intro inst received h
    cases a with
    | receive =>
      cases hqe : inst.app_queue with
      | nil =>
        simp only [runApp, hqe]
        exact h
      | cons m q =>
        simp only [runApp, hqe]
        apply ih
        obtain ⟨h1, h2, h3⟩ := h
        refine ⟨?_, h2, h3⟩
        show (received ++ [m]) ++ q = inst.enqueued
        rw [List.append_assoc]
        rw [hqe] at h1
        exact h1
    | send m =>
      cases hs : send inst m with
      | ok inst2 =>
        simp only [runApp, hs]
        exact ih inst2 received (inv_send h hs)
      | error e =>
        simp only [runApp, hs]
        exact h

/-- Claim C5 (amended): on every run, channel delivery is strict FIFO:
the messages the callee has received followed by the pending queue are
exactly the put history; the put history always starts with the single
request message; it is the request message alone until body completion
and exactly the request message followed by the disconnect message
afterwards, so the adapter produces no other message and the disconnect
is enqueued only by the body-completing response.body and is always
last. Moreover, after body completion with the request message already
consumed, the pending queue is exactly the disconnect message, so the
FIRST subsequent receive is satisfied with the disconnect message
(further receives find the queue drained). -/
theorem C5_fifo_two_messages :
    (∀ (b : Bytes) (acts : List Action),
      (runApp (initInstance b) [] acts).received ++
          (runApp (initInstance b) [] acts).inst.app_queue =
        (runApp (initInstance b) [] acts).inst.enqueued ∧
      ((runApp (initInstance b) [] acts).inst.enqueued).head? = some (requestMsg b) ∧
      ((runApp (initInstance b) [] acts).inst.state = HttpState.COMPLETE →
        (runApp (initInstance b) [] acts).inst.enqueued =
          [requestMsg b, disconnectMsg]) ∧
      ((runApp (initInstance b) [] acts).inst.state ≠ HttpState.COMPLETE →
        (runApp (initInstance b) [] acts).inst.enqueued = [requestMsg b])) ∧
    (∀ (b : Bytes) (acts : List Action) (inst : Instance) (received : List Msg)
        (rest : List Action),
      runApp (initInstance b) [] acts = RunOutcome.ok inst received →
      inst.state = HttpState.COMPLETE →
      received = [requestMsg b] →
      inst.app_queue = [disconnectMsg] ∧
      runApp inst received (Action.receive :: rest) =
        runApp { inst with app_queue := [] } (received ++ [disconnectMsg]) rest) := by
  constructor
  · intro b acts
    obtain ⟨h1, h2, h3⟩ := inv_runApp acts (initInstance b) [] (inv_init b)
    refine ⟨h1, ?_, h2, h3⟩
    by_cases hcomp : (runApp (initInstance b) [] acts).inst.state = HttpState.COMPLETE
    · rw [h2 hcomp]; rfl
    · rw [h3 hcomp]; rfl
  · intro b acts inst received rest hrun hcomp hrecv
    have hI := inv_runApp acts (initInstance b) [] (inv_init b)
    rw [hrun] at hI
    simp only [RunOutcome.inst, RunOutcome.received] at hI
    obtain ⟨hq, hc, _⟩ := hI
    have he : inst.enqueued = [requestMsg b, disconnectMsg] := hc hcomp
    rw [hrecv, he] at hq
    have hqq : inst.app_queue = [disconnectMsg] := by simpa using hq
    refine ⟨hqq, ?_⟩
    simp only [runApp, hqq]

/-- Witness for C5 (amended): the invariant facts at the concrete
single-body run, and the concrete post-completion receive satisfied by
the disconnect message. -/
theorem C5_fifo_two_messages_witness :
    ((runApp (initInstance []) [] actsC5ok).received ++
        (runApp (initInstance []) [] actsC5ok).inst.app_queue =
      (runApp (initInstance []) [] actsC5ok).inst.enqueued ∧
      ((runApp (initInstance []) [] actsC5ok).inst.enqueued).head? =
        some (requestMsg []) ∧
      ((runApp (initInstance []) [] actsC5ok).inst.state = HttpState.COMPLETE →
        (runApp (initInstance []) [] actsC5ok).inst.enqueued =
          [requestMsg [], disconnectMsg]) ∧
      ((runApp (initInstance []) [] actsC5ok).inst.state ≠ HttpState.COMPLETE →
        (runApp (initInstance []) [] actsC5ok).inst.enqueued = [requestMsg []])) ∧
    (instC5.app_queue = [disconnectMsg] ∧
      runApp instC5 [requestMsg []] [Action.receive] =
        runApp { instC5 with app_queue := [] } ([requestMsg []] ++ [disconnectMsg]) []) :=
  ⟨C5_fifo_two_messages.1 [] actsC5ok,
   C5_fifo_two_messages.2 [] actsC5ok instC5 [requestMsg []] [] (by rfl) rfl rfl⟩

/-- Counterexample to C5 as stated: in the run of actsC5 the callee
issues two receives after body completion; the run ends in a
never-satisfied suspension (hang) at the second one, in state COMPLETE,
so it is not the case that any subsequent receive after body completion
is satisfied with the disconnect message rather than suspending. -/
theorem C5_counterexample :
    runApp (initInstance []) [] actsC5 =
      RunOutcome.hang instC5hang [requestMsg [], disconnectMsg] ∧
    instC5hang.state = HttpState.COMPLETE := by
  exact ⟨by decide, rfl⟩

end AsgiToWsgi

